import Mathlib

/- Verification of the mqtt-dashboard connectivity and dispatch layer
   (unixweb/autoclaude).  The Python sources in
   backend/app/mqtt_client.py, backend/app/services/sys_monitor.py,
   backend/app/services/subscription_manager.py,
   backend/app/services/topic_tracker.py and backend/app/mqtt_bridge.py
   are shallowly embedded: pure helpers become Lean functions, the
   stateful services become explicit state-passing step functions, and
   transport or interpreter failures (exceptions, error return codes)
   become explicit outcome parameters. -/

/-! ## Topic matcher (MQTTClient._topic_matches) -/

/-- Splitting of a character list on the slash separator, exactly as
Python's `str.split` with a one-character separator: the result always has
at least one (possibly empty) segment, and consecutive separators yield
empty segments. -/
def splitSlash : List Char → List (List Char)
  | [] => [[]]
  | c :: cs =>
    match splitSlash cs with
    | [] => [[]]
    | seg :: rest => if c = '/' then [] :: seg :: rest else (c :: seg) :: rest

namespace MQTTClient

/-- The for-loop of `MQTTClient._topic_matches`, walking the remaining
pattern segments while `i` indexes the topic segments.  When the pattern
runs out, `i` is one past the last pattern index, so the Python
post-loop test `i + 1 == len(topic_parts)` reads `i = tops.length` here. -/
def matchLoop (tops : List (List Char)) : List (List Char) → Nat → Bool
  | [], i => decide (i = tops.length)
  | p :: ps, i =>
    if p = ['#'] then true
    else if tops.length ≤ i then false
    else if p ≠ ['+'] ∧ p ≠ tops.getD i [] then false
    else matchLoop tops ps (i + 1)

/-- `MQTTClient._topic_matches(pattern, topic)`: split both strings on
the slash and run the index loop.  Python initialises `i = 0` before the
loop, so an (unreachable, since `split` is never empty) empty pattern
list would return `0 + 1 == len(topic_parts)`. -/
def topic_matches (pattern topic : String) : Bool :=
  match splitSlash pattern.data with
  | [] => decide (1 = (splitSlash topic.data).length)
  | p :: ps => matchLoop (splitSlash topic.data) (p :: ps) 0

end MQTTClient

/-- Reference matching algorithm, written from the specification text:
walk pattern and topic segments left to right; a multi-level wildcard
segment matches the whole remainder of the topic (including zero
segments, even in non-final position); a single-level wildcard matches
exactly one (possibly empty) topic segment; a literal segment must match
exactly; if either side is exhausted before the other (without a
multi-level wildcard) there is no match. -/
def specMatchSegs : List (List Char) → List (List Char) → Bool
  | [], ts => ts.isEmpty
  | p :: ps, ts =>
    if p = ['#'] then true
    else
      match ts with
      | [] => false
      | t :: ts => (decide (p = ['+']) || decide (p = t)) && specMatchSegs ps ts

/-- The reference matcher on whole strings. -/
def spec_topic_matches (pattern topic : String) : Bool :=
  specMatchSegs (splitSlash pattern.data) (splitSlash topic.data)

/-- A literal topic: none of its segments is a wildcard. -/
def isLiteralTopic (t : String) : Bool :=
  (splitSlash t.data).all fun s => decide (s ≠ ['#']) && decide (s ≠ ['+'])

theorem splitSlash_ne_nil (l : List Char) : splitSlash l ≠ [] := by
  induction l with
  | nil => simp [splitSlash]
  | cons c cs ih =>
    simp only [splitSlash]
    cases h : splitSlash cs with
    | nil => simp
    | cons seg rest =>
      by_cases hc : c = '/' <;> simp [hc]

theorem matchLoop_eq_spec (tops : List (List Char)) :
    ∀ (ps : List (List Char)) (i : Nat), i ≤ tops.length →
      MQTTClient.matchLoop tops ps i = specMatchSegs ps (tops.drop i) := by
  intro ps
  induction ps with
  | nil =>
    intro i hi
    simp only [MQTTClient.matchLoop, specMatchSegs, List.isEmpty_iff,
      List.drop_eq_nil_iff]
    rcases Nat.lt_or_ge i tops.length with h | h
    · simp [Nat.ne_of_lt h, Nat.not_le.mpr h]
    · have : i = tops.length := Nat.le_antisymm hi h
      simp [this]
  | cons p ps ih =>
    intro i hi
    simp only [MQTTClient.matchLoop, specMatchSegs]
    by_cases hp : p = ['#']
    · simp [hp]
    · simp only [hp, if_false]
      rcases Nat.lt_or_ge i tops.length with h | h
      · have hdrop := List.drop_eq_getElem_cons (l := tops) (n := i) h
        rw [hdrop]
        have hne : ¬ tops.length ≤ i := Nat.not_le.mpr h
        simp only [hne, if_false]
        have hgetD : tops.getD i [] = tops[i] := List.getD_eq_getElem tops [] h
        rw [hgetD]
        by_cases hplus : p = ['+']
        · simp only [hplus]
          simp [ih (i + 1) (Nat.succ_le_of_lt h)]
        · by_cases heq : p = tops[i]
          · simp only [heq]
            simp [ih (i + 1) (Nat.succ_le_of_lt h), heq]
          · simp [hplus, heq]
      · have hlen : tops.length ≤ i := h
        have : tops.drop i = [] := List.drop_eq_nil_iff.mpr hlen
        rw [this]
        simp [hlen]

theorem topic_matches_eq_loop (pattern topic : String) :
    MQTTClient.topic_matches pattern topic =
      specMatchSegs (splitSlash pattern.data) (splitSlash topic.data) := by
  unfold MQTTClient.topic_matches
  cases h : splitSlash pattern.data with
  | nil => exact absurd h (splitSlash_ne_nil pattern.data)
  | cons p ps =>
    have := matchLoop_eq_spec (splitSlash topic.data) (p :: ps) 0 (Nat.zero_le _)
    simpa using this

theorem specMatchSegs_self (segs : List (List Char)) :
    specMatchSegs segs segs = true := by
  induction segs with
  | nil => simp [specMatchSegs]
  | cons p ps ih =>
    simp only [specMatchSegs]
    by_cases hp : p = ['#'] <;> simp [hp, ih]

/-- C1: `_topic_matches` conforms to the reference algorithm from the
specification: both strings are split on the slash and walked left to
right, with a multi-level wildcard greedily matching the remainder (even
in non-final position), a single-level wildcard matching exactly one
(possibly empty) segment, literal segments matching exactly, and either
side running out first (without a multi-level wildcard) being a
mismatch.  In particular every literal topic matches itself and the
listed concrete examples behave as specified. -/
theorem c1_topic_matcher_conforms :
    (∀ pattern topic : String,
        MQTTClient.topic_matches pattern topic = spec_topic_matches pattern topic)
    ∧ (∀ t : String, isLiteralTopic t = true → MQTTClient.topic_matches t t = true)
    ∧ MQTTClient.topic_matches "a/#" "a" = true
    ∧ MQTTClient.topic_matches "a/#" "a/b/c" = true
    ∧ MQTTClient.topic_matches "a/b" "a/b/c" = false
    ∧ MQTTClient.topic_matches "a/+/c" "a//c" = true := by
  refine ⟨?_, ?_, by decide, by decide, by decide, by decide⟩
  · intro pattern topic
    exact topic_matches_eq_loop pattern topic
  · intro t _
    rw [topic_matches_eq_loop]
    exact specMatchSegs_self _

/-- Witness for C1 at a concrete literal topic. -/
theorem c1_witness :
    isLiteralTopic "home/temp" = true ∧
      MQTTClient.topic_matches "home/temp" "home/temp" = true :=
  ⟨by decide, c1_topic_matcher_conforms.2.1 "home/temp" (by decide)⟩

/-! ## Python numeric parsing (int(), float(), str.split()) -/

/-- Whitespace characters stripped by Python's int()/float()/str.split(). -/
def isPySpace (c : Char) : Bool :=
  c == ' ' || c == '\t' || c == '\n' || c == '\r' || c == Char.ofNat 11 || c == Char.ofNat 12

/-- Strip leading and trailing whitespace, as Python does before numeric
conversion. -/
def trimWs (l : List Char) : List Char :=
  ((l.dropWhile isPySpace).reverse.dropWhile isPySpace).reverse

/-- Numeric value of a decimal digit character. -/
def digitVal (c : Char) : Nat := c.toNat - 48

/-- Continue a decimal-digit run that may contain single underscores
between digits (Python numeric-literal syntax), accumulating the value;
any other character makes the whole conversion fail. -/
def digitsRest (acc : Nat) : List Char → Option Nat
  | [] => some acc
  | c :: cs =>
    if c.isDigit then digitsRest (acc * 10 + digitVal c) cs
    else if c = '_' then
      match cs with
      | [] => none
      | c2 :: cs2 =>
        if c2.isDigit then digitsRest (acc * 10 + digitVal c2) cs2 else none
    else none

/-- A nonempty underscore-tolerant decimal-digit run and its value. -/
def digitsVal : List Char → Option Nat
  | [] => none
  | c :: cs => if c.isDigit then digitsRest (digitVal c) cs else none

/-- Optional sign followed by a digit run that must span the whole rest
of the input. -/
def pyIntSigned (l : List Char) : Option Int :=
  match l with
  | [] => (digitsVal []).map fun n => (n : Int)
  | c :: cs =>
    if c = '+' then (digitsVal cs).map fun n => (n : Int)
    else if c = '-' then (digitsVal cs).map fun n => -(n : Int)
    else (digitsVal (c :: cs)).map fun n => (n : Int)

/-- Python `int(s)`: strip whitespace, take an optional sign, then require
the whole remainder to be a decimal-digit run; otherwise ValueError
(None here). -/
def pyInt (l : List Char) : Option Int :=
  pyIntSigned (trimWs l)

/-- Skip a leading underscore-tolerant digit run, returning the rest of
the input unchanged when a non-run character is reached. -/
def digitsTail : List Char → List Char
  | [] => []
  | c :: cs =>
    if c.isDigit then digitsTail cs
    else if c = '_' then
      match cs with
      | [] => ['_']
      | c2 :: cs2 => if c2.isDigit then digitsTail cs2 else '_' :: c2 :: cs2
    else c :: cs

/-- Require a nonempty digit run and return what follows it. -/
def digitsDrop : List Char → Option (List Char)
  | [] => none
  | c :: cs => if c.isDigit then some (digitsTail cs) else none

/-- Accept an optional exponent part followed by end of input. -/
def expTail : List Char → Bool
  | [] => true
  | c :: cs =>
    if c = 'e' ∨ c = 'E' then
      match cs with
      | '+' :: cs2 => digitsDrop cs2 == some []
      | '-' :: cs2 => digitsDrop cs2 == some []
      | cs2 => digitsDrop cs2 == some []
    else false

/-- After the integer part of a float literal: an optional fraction, then
an optional exponent, then end of input. -/
def fracExp : List Char → Bool
  | '.' :: r =>
    (match digitsDrop r with
     | some r2 => expTail r2
     | none => expTail r)
  | r => expTail r

/-- Case-insensitive comparison against a fixed word. -/
def lowerEq (l : List Char) (w : List Char) : Bool :=
  l.map Char.toLower == w

/-- Body of a Python float literal (sign already removed). -/
def pyFloatBody (l : List Char) : Bool :=
  if lowerEq l ['i', 'n', 'f'] || lowerEq l ['i', 'n', 'f', 'i', 'n', 'i', 't', 'y'] ||
      lowerEq l ['n', 'a', 'n'] then
    true
  else
    match digitsDrop l with
    | some r => fracExp r
    | none =>
      match l with
      | '.' :: r =>
        (match digitsDrop r with
         | some r2 => expTail r2
         | none => false)
      | _ => false

/-- A Python float literal with optional sign. -/
def pyFloatSigned : List Char → Bool
  | [] => pyFloatBody []
  | c :: cs => if c = '+' ∨ c = '-' then pyFloatBody cs else pyFloatBody (c :: cs)

/-- Python `float(s)`: strip whitespace and check the float-literal
grammar.  The IEEE-754 value is out of scope for the verified claims, so
an accepted literal is represented by its stripped text. -/
def pyFloat (l : List Char) : Option (List Char) :=
  if pyFloatSigned (trimWs l) then some (trimWs l) else none

theorem length_dropWhile_le' (p : Char → Bool) (l : List Char) :
    (l.dropWhile p).length ≤ l.length := by
  induction l with
  | nil => simp
  | cons c cs ih =>
    by_cases h : p c
    · rw [List.dropWhile_cons_of_pos h]
      exact Nat.le_succ_of_le ih
    · rw [List.dropWhile_cons_of_neg h]

/-- Python `str.split()` with no separator: split on runs of whitespace,
discarding empty fields. -/
def pySplit (l : List Char) : List (List Char) :=
  match l with
  | [] => []
  | c :: cs =>
    if isPySpace c then pySplit cs
    else (c :: cs.takeWhile fun d => !isPySpace d) ::
      pySplit (cs.dropWhile fun d => !isPySpace d)
termination_by l.length
decreasing_by
  · simp only [List.length_cons]
    omega
  · simp only [List.length_cons]
    have := length_dropWhile_le' (fun d => !isPySpace d) cs
    omega

/-! ## Metrics cache (SysMonitor, app/services/sys_monitor.py) -/

/-- One statistics value: an integer, a float (kept as its accepted
literal text), or a string. -/
inductive StatVal
  | i : Int → StatVal
  | f : List Char → StatVal
  | s : List Char → StatVal
  deriving DecidableEq

/-- The Python type stored with each TOPIC_MAPPINGS entry. -/
inductive PType
  | pInt
  | pFloat
  | pStr
  deriving DecidableEq

/-- The BrokerStats attribute names that appear in the topic tables. -/
inductive SysField
  | version
  | uptime
  | clients_connected
  | clients_disconnected
  | clients_total
  | clients_maximum
  | clients_expired
  | messages_received
  | messages_sent
  | messages_stored
  | messages_inflight
  | messages_dropped
  | publish_messages_received
  | publish_messages_sent
  | publish_messages_dropped
  | bytes_received
  | bytes_sent
  | subscriptions_count
  | retained_messages_count
  | load_messages_received_1min
  | load_messages_received_5min
  | load_messages_received_15min
  | load_messages_sent_1min
  | load_messages_sent_5min
  | load_messages_sent_15min
  | load_bytes_received_1min
  | load_bytes_received_5min
  | load_bytes_received_15min
  | load_bytes_sent_1min
  | load_bytes_sent_5min
  | load_bytes_sent_15min
  | load_connections_1min
  | load_connections_5min
  | load_connections_15min
  | load_publish_received_1min
  | load_publish_received_5min
  | load_publish_received_15min
  | load_publish_sent_1min
  | load_publish_sent_5min
  | load_publish_sent_15min
  | load_sockets_1min
  | load_sockets_5min
  | load_sockets_15min
  | heap_current
  | heap_maximum
  deriving DecidableEq

/-- TOPIC_MAPPINGS from app/services/sys_monitor.py: known metric topic
to (BrokerStats attribute, Python conversion type). -/
def TOPIC_MAPPINGS : List (String × SysField × PType) := [
  ("$SYS/broker/version", SysField.version, PType.pStr),
  ("$SYS/broker/uptime", SysField.uptime, PType.pInt),
  ("$SYS/broker/clients/connected", SysField.clients_connected, PType.pInt),
  ("$SYS/broker/clients/disconnected", SysField.clients_disconnected, PType.pInt),
  ("$SYS/broker/clients/total", SysField.clients_total, PType.pInt),
  ("$SYS/broker/clients/maximum", SysField.clients_maximum, PType.pInt),
  ("$SYS/broker/clients/expired", SysField.clients_expired, PType.pInt),
  ("$SYS/broker/messages/received", SysField.messages_received, PType.pInt),
  ("$SYS/broker/messages/sent", SysField.messages_sent, PType.pInt),
  ("$SYS/broker/messages/stored", SysField.messages_stored, PType.pInt),
  ("$SYS/broker/messages/inflight", SysField.messages_inflight, PType.pInt),
  ("$SYS/broker/messages/dropped", SysField.messages_dropped, PType.pInt),
  ("$SYS/broker/publish/messages/received", SysField.publish_messages_received, PType.pInt),
  ("$SYS/broker/publish/messages/sent", SysField.publish_messages_sent, PType.pInt),
  ("$SYS/broker/publish/messages/dropped", SysField.publish_messages_dropped, PType.pInt),
  ("$SYS/broker/bytes/received", SysField.bytes_received, PType.pInt),
  ("$SYS/broker/bytes/sent", SysField.bytes_sent, PType.pInt),
  ("$SYS/broker/subscriptions/count", SysField.subscriptions_count, PType.pInt),
  ("$SYS/broker/retained messages/count", SysField.retained_messages_count, PType.pInt),
  ("$SYS/broker/load/messages/received/1min", SysField.load_messages_received_1min, PType.pFloat),
  ("$SYS/broker/load/messages/received/5min", SysField.load_messages_received_5min, PType.pFloat),
  ("$SYS/broker/load/messages/received/15min", SysField.load_messages_received_15min, PType.pFloat),
  ("$SYS/broker/load/messages/sent/1min", SysField.load_messages_sent_1min, PType.pFloat),
  ("$SYS/broker/load/messages/sent/5min", SysField.load_messages_sent_5min, PType.pFloat),
  ("$SYS/broker/load/messages/sent/15min", SysField.load_messages_sent_15min, PType.pFloat),
  ("$SYS/broker/load/bytes/received/1min", SysField.load_bytes_received_1min, PType.pFloat),
  ("$SYS/broker/load/bytes/received/5min", SysField.load_bytes_received_5min, PType.pFloat),
  ("$SYS/broker/load/bytes/received/15min", SysField.load_bytes_received_15min, PType.pFloat),
  ("$SYS/broker/load/bytes/sent/1min", SysField.load_bytes_sent_1min, PType.pFloat),
  ("$SYS/broker/load/bytes/sent/5min", SysField.load_bytes_sent_5min, PType.pFloat),
  ("$SYS/broker/load/bytes/sent/15min", SysField.load_bytes_sent_15min, PType.pFloat),
  ("$SYS/broker/load/connections/1min", SysField.load_connections_1min, PType.pFloat),
  ("$SYS/broker/load/connections/5min", SysField.load_connections_5min, PType.pFloat),
  ("$SYS/broker/load/connections/15min", SysField.load_connections_15min, PType.pFloat),
  ("$SYS/broker/load/publish/received/1min", SysField.load_publish_received_1min, PType.pFloat),
  ("$SYS/broker/load/publish/received/5min", SysField.load_publish_received_5min, PType.pFloat),
  ("$SYS/broker/load/publish/received/15min", SysField.load_publish_received_15min, PType.pFloat),
  ("$SYS/broker/load/publish/sent/1min", SysField.load_publish_sent_1min, PType.pFloat),
  ("$SYS/broker/load/publish/sent/5min", SysField.load_publish_sent_5min, PType.pFloat),
  ("$SYS/broker/load/publish/sent/15min", SysField.load_publish_sent_15min, PType.pFloat),
  ("$SYS/broker/load/sockets/1min", SysField.load_sockets_1min, PType.pFloat),
  ("$SYS/broker/load/sockets/5min", SysField.load_sockets_5min, PType.pFloat),
  ("$SYS/broker/load/sockets/15min", SysField.load_sockets_15min, PType.pFloat),
  ("$SYS/broker/heap/current", SysField.heap_current, PType.pInt),
  ("$SYS/broker/heap/maximum", SysField.heap_maximum, PType.pInt)]

/-- The BrokerStats record.  Python's dataclass attributes, each nullable
until first observed, are modelled as a total map from field names to
optional values, plus the last-updated timestamp. -/
structure BrokerStats where
  fields : SysField → Option StatVal
  last_updated : Int

/-- A fresh BrokerStats() with no field observed yet. -/
def emptyStats : BrokerStats := ⟨fun _ => none, 0⟩

namespace SysMonitor

/-- Parse a payload according to the mapped Python type, as the body of
`_on_sys_message` does: `int(payload)`, `float(payload)` or
`str(payload)`. -/
def parseValue : PType → List Char → Option StatVal
  | PType.pInt, l => (pyInt l).map StatVal.i
  | PType.pFloat, l => (pyFloat l).map StatVal.f
  | PType.pStr, l => some (StatVal.s l)

/-- `SysMonitor._on_sys_message(topic, payload)`: unknown topics are
ignored; a parse failure (ValueError) is caught and leaves the stats
untouched; a successful parse writes the mapped field and stamps
`last_updated` with the current time `now`. -/
def on_sys_message (st : BrokerStats) (topic : String) (payload : List Char)
    (now : Int) : BrokerStats :=
  match List.lookup topic TOPIC_MAPPINGS with
  | none => st
  | some (fld, ty) =>
    match parseValue ty payload with
    | none => st
    | some v =>
      { fields := fun f => if f = fld then some v else st.fields f,
        last_updated := now }

end SysMonitor

/-- C3: for every known metric topic and cache state, a malformed payload
leaves the whole record (mapped field and `last_updated` included)
unchanged, while a valid payload updates exactly the mapped field, leaves
every other field unchanged, and stamps `last_updated` with the current
time (newer than the previous stamp whenever time advanced). -/
theorem c3_metric_cache_update :
    ∀ (st : BrokerStats) (topic : String) (payload : List Char) (now : Int)
      (fld : SysField) (ty : PType),
      List.lookup topic TOPIC_MAPPINGS = some (fld, ty) →
      (SysMonitor.parseValue ty payload = none →
          SysMonitor.on_sys_message st topic payload now = st)
      ∧ (∀ v, SysMonitor.parseValue ty payload = some v →
          (SysMonitor.on_sys_message st topic payload now).fields fld = some v
          ∧ (∀ f, f ≠ fld →
              (SysMonitor.on_sys_message st topic payload now).fields f = st.fields f)
          ∧ (SysMonitor.on_sys_message st topic payload now).last_updated = now
          ∧ (st.last_updated < now →
              st.last_updated < (SysMonitor.on_sys_message st topic payload now).last_updated)) := by
  intro st topic payload now fld ty hl
  constructor
  · intro hp
    simp [SysMonitor.on_sys_message, hl, hp]
  · intro v hp
    refine ⟨?_, ?_, ?_, ?_⟩
    · simp [SysMonitor.on_sys_message, hl, hp]
    · intro f hf
      simp [SysMonitor.on_sys_message, hl, hp, hf]
    · simp [SysMonitor.on_sys_message, hl, hp]
    · intro h
      simpa [SysMonitor.on_sys_message, hl, hp] using h

/-- Witness for C3: a valid uptime payload updates the uptime field. -/
theorem c3_witness :
    (SysMonitor.on_sys_message emptyStats "$SYS/broker/uptime"
        (String.data "42") 5).fields SysField.uptime = some (StatVal.i 42) :=
  (c3_metric_cache_update emptyStats "$SYS/broker/uptime" (String.data "42") 5
      SysField.uptime PType.pInt (by decide)).2 (StatVal.i 42) (by decide) |>.1

/-! ## Parsing lemmas for the unit-suffix analysis -/

theorem digitsRest_space_none :
    ∀ (acc : Nat) (l : List Char), ' ' ∈ l → digitsRest acc l = none := by
  intro acc l
  induction acc, l using digitsRest.induct with
  | case1 acc =>
    intro h
    cases h
  | case2 acc c cs hdig ih =>
    intro h
    have hc : (' ' : Char) ≠ c := fun he => absurd hdig (by rw [← he]; decide)
    have hcs : ' ' ∈ cs := by
      rcases List.mem_cons.mp h with h1 | h1
      · exact absurd h1 hc
      · exact h1
    rw [digitsRest.eq_def]
    simp only [hdig, if_true]
    exact ih hcs
  | case3 acc hnd =>
    intro h
    exact absurd (List.mem_singleton.mp h) (by decide)
  | case4 acc c2 cs2 hdig hnd ih =>
    intro h
    have hc : (' ' : Char) ≠ c2 := fun he => absurd hdig (by rw [← he]; decide)
    have hcs : ' ' ∈ cs2 := by
      rcases List.mem_cons.mp h with h1 | h1
      · exact absurd h1 (by decide)
      · rcases List.mem_cons.mp h1 with h2 | h2
        · exact absurd h2 hc
        · exact h2
    have h0 : ('_' : Char).isDigit = false := by decide
    rw [digitsRest.eq_def]
    simpa [h0, hdig] using ih hcs
  | case5 acc c2 cs2 hnd2 hnd =>
    intro h
    have h0 : ('_' : Char).isDigit = false := by decide
    rw [digitsRest.eq_def]
    simp [h0, hnd2]
  | case6 acc c2 cs2 hnd hne =>
    intro h
    rw [digitsRest.eq_def]
    simp [hnd, hne]

theorem digitsVal_space_none (l : List Char) (h : ' ' ∈ l) : digitsVal l = none := by
  cases l with
  | nil => cases h
  | cons c cs =>
    by_cases hd : c.isDigit
    · have hc : (' ' : Char) ≠ c := fun he => absurd hd (by rw [← he]; decide)
      have hcs : ' ' ∈ cs := by
        rcases List.mem_cons.mp h with h1 | h1
        · exact absurd h1 hc
        · exact h1
      simp [digitsVal, hd, digitsRest_space_none _ _ hcs]
    · simp [digitsVal, hd]

theorem pyIntSigned_space_none (l : List Char) (h : ' ' ∈ l) : pyIntSigned l = none := by
  cases l with
  | nil => cases h
  | cons c cs =>
    by_cases h1 : c = '+'
    · have hcs : ' ' ∈ cs := by
        rcases List.mem_cons.mp h with h2 | h2
        · rw [h1] at h2
          exact absurd h2 (by decide)
        · exact h2
      simp [pyIntSigned, h1, digitsVal_space_none cs hcs]
    · by_cases h2 : c = '-'
      · have hcs : ' ' ∈ cs := by
          rcases List.mem_cons.mp h with h3 | h3
          · rw [h2] at h3
            exact absurd h3 (by decide)
          · exact h3
        simp [pyIntSigned, h1, h2, digitsVal_space_none cs hcs]
      · simp [pyIntSigned, h1, h2, digitsVal_space_none (c :: cs) h]

theorem trimWs_eq_self_of (l : List Char)
    (hh : ∀ c, l.head? = some c → isPySpace c = false)
    (hl : ∀ c, l.getLast? = some c → isPySpace c = false) :
    trimWs l = l := by
  unfold trimWs
  have h1 : l.dropWhile isPySpace = l := by
    cases l with
    | nil => rfl
    | cons c cs =>
      have hc := hh c rfl
      rw [List.dropWhile_cons_of_neg (by simp [hc])]
  rw [h1]
  have h2 : l.reverse.dropWhile isPySpace = l.reverse := by
    cases hr : l.reverse with
    | nil => rfl
    | cons d ds =>
      have hd : l.getLast? = some d := by
        rw [← List.head?_reverse, hr]
        rfl
      have := hl d hd
      rw [List.dropWhile_cons_of_neg (by simp [this])]
  rw [h2, List.reverse_reverse]

theorem trimWs_token_unit (tok unit : List Char) (ht : tok ≠ [])
    (hat : ∀ c ∈ tok, isPySpace c = false)
    (hu : unit ≠ []) (hau : ∀ c ∈ unit, isPySpace c = false) :
    trimWs (tok ++ ' ' :: unit) = tok ++ ' ' :: unit := by
  apply trimWs_eq_self_of
  · intro c hc
    cases tok with
    | nil => exact absurd rfl ht
    | cons t ts =>
      have hct : t = c := by simpa using hc
      rw [← hct]
      exact hat t (by simp)
  · intro c hc
    rcases List.eq_nil_or_concat' unit with h | ⟨us, u, h⟩
    · exact absurd h hu
    · subst h
      have he : tok ++ ' ' :: (us ++ [u]) = (tok ++ ' ' :: us) ++ [u] := by simp
      rw [he, List.getLast?_concat] at hc
      have hcu : u = c := by simpa using hc
      rw [← hcu]
      exact hau u (by simp)

theorem pyInt_token_space_none (tok unit : List Char) (ht : tok ≠ [])
    (hat : ∀ c ∈ tok, isPySpace c = false)
    (hu : unit ≠ []) (hau : ∀ c ∈ unit, isPySpace c = false) :
    pyInt (tok ++ ' ' :: unit) = none := by
  unfold pyInt
  rw [trimWs_token_unit tok unit ht hat hu hau]
  exact pyIntSigned_space_none _ (by simp)

theorem takeWhile_append_all (p : Char → Bool) (l1 l2 : List Char)
    (h : ∀ c ∈ l1, p c = true) :
    (l1 ++ l2).takeWhile p = l1 ++ l2.takeWhile p := by
  induction l1 with
  | nil => simp
  | cons c cs ih =>
    have hc := h c (by simp)
    simp only [List.cons_append, List.takeWhile_cons_of_pos hc]
    rw [ih fun d hd => h d (by simp [hd])]

theorem dropWhile_append_all (p : Char → Bool) (l1 l2 : List Char)
    (h : ∀ c ∈ l1, p c = true) :
    (l1 ++ l2).dropWhile p = l2.dropWhile p := by
  induction l1 with
  | nil => simp
  | cons c cs ih =>
    have hc := h c (by simp)
    simp only [List.cons_append, List.dropWhile_cons_of_pos hc]
    exact ih fun d hd => h d (by simp [hd])

theorem pySplit_token_unit (tok rest : List Char) (ht : tok ≠ [])
    (hat : ∀ c ∈ tok, isPySpace c = false) :
    pySplit (tok ++ ' ' :: rest) = tok :: pySplit rest := by
  cases tok with
  | nil => exact absurd rfl ht
  | cons c cs =>
    have hc : isPySpace c = false := hat c (by simp)
    have hall : ∀ d ∈ cs, (!isPySpace d) = true := by
      intro d hd
      simp [hat d (by simp [hd])]
    rw [List.cons_append]
    rw [show pySplit (c :: (cs ++ ' ' :: rest)) =
        if isPySpace c then pySplit (cs ++ ' ' :: rest)
        else (c :: (cs ++ ' ' :: rest).takeWhile fun d => !isPySpace d) ::
          pySplit ((cs ++ ' ' :: rest).dropWhile fun d => !isPySpace d) from by
      rw [pySplit]]
    rw [if_neg (by simp [hc])]
    rw [takeWhile_append_all _ cs (' ' :: rest) hall]
    rw [dropWhile_append_all _ cs (' ' :: rest) hall]
    rw [List.takeWhile_cons_of_neg (by decide)]
    rw [List.dropWhile_cons_of_neg (by decide)]
    rw [show pySplit (' ' :: rest) = pySplit rest from by
      rw [pySplit]
      simp [show isPySpace ' ' = true from by decide]]
    simp

theorem pySplit_single (tok : List Char) (ht : tok ≠ [])
    (hat : ∀ c ∈ tok, isPySpace c = false) :
    pySplit tok = [tok] := by
  cases tok with
  | nil => exact absurd rfl ht
  | cons c cs =>
    have hc : isPySpace c = false := hat c (by simp)
    have hall : ∀ d ∈ cs, (!isPySpace d) = true := by
      intro d hd
      simp [hat d (by simp [hd])]
    rw [show pySplit (c :: cs) =
        if isPySpace c then pySplit cs
        else (c :: cs.takeWhile fun d => !isPySpace d) ::
          pySplit (cs.dropWhile fun d => !isPySpace d) from by
      rw [pySplit]]
    rw [if_neg (by simp [hc])]
    rw [List.takeWhile_eq_self_iff.mpr hall]
    rw [List.dropWhile_eq_nil_iff.mpr hall]
    rw [show pySplit ([] : List Char) = [] from by rw [pySplit]]

/-! ## Bridge stats updater (MQTTBridge._update_stats_from_sys) -/

namespace MQTTBridge

/-- The converters used by the bridge's topic map: Python's plain `int`,
the local helpers `parse_int` / `parse_float` (which split off the first
whitespace-separated token before converting), and plain `str`. -/
inductive BConv
  | cInt
  | cParseInt
  | cParseFloat
  | cStr
  deriving DecidableEq

/-- `parse_int(value)` from `_update_stats_from_sys`:
`int(value.split()[0])`; an empty split raises IndexError, which the
caller catches (None here). -/
def parse_int (l : List Char) : Option Int :=
  match pySplit l with
  | [] => none
  | t :: _ => pyInt t

/-- `parse_float(value)` from `_update_stats_from_sys`:
`float(value.split()[0])` with the same failure handling. -/
def parse_float (l : List Char) : Option (List Char) :=
  match pySplit l with
  | [] => none
  | t :: _ => pyFloat t

/-- Apply one of the bridge's converters to a payload. -/
def convert : BConv → List Char → Option StatVal
  | BConv.cInt, l => (pyInt l).map StatVal.i
  | BConv.cParseInt, l => (parse_int l).map StatVal.i
  | BConv.cParseFloat, l => (parse_float l).map StatVal.f
  | BConv.cStr, l => some (StatVal.s l)

/-- The `topic_map` built inside `MQTTBridge._update_stats_from_sys`. -/
def topic_map : List (String × SysField × BConv) := [
  ("$SYS/broker/version", SysField.version, BConv.cStr),
  ("$SYS/broker/uptime", SysField.uptime, BConv.cParseInt),
  ("$SYS/broker/clients/connected", SysField.clients_connected, BConv.cInt),
  ("$SYS/broker/clients/disconnected", SysField.clients_disconnected, BConv.cInt),
  ("$SYS/broker/clients/total", SysField.clients_total, BConv.cInt),
  ("$SYS/broker/clients/maximum", SysField.clients_maximum, BConv.cInt),
  ("$SYS/broker/clients/expired", SysField.clients_expired, BConv.cInt),
  ("$SYS/broker/messages/received", SysField.messages_received, BConv.cInt),
  ("$SYS/broker/messages/sent", SysField.messages_sent, BConv.cInt),
  ("$SYS/broker/messages/stored", SysField.messages_stored, BConv.cInt),
  ("$SYS/broker/store/messages/count", SysField.messages_stored, BConv.cInt),
  ("$SYS/broker/messages/inflight", SysField.messages_inflight, BConv.cInt),
  ("$SYS/broker/publish/messages/received", SysField.publish_messages_received, BConv.cInt),
  ("$SYS/broker/publish/messages/sent", SysField.publish_messages_sent, BConv.cInt),
  ("$SYS/broker/publish/messages/dropped", SysField.publish_messages_dropped, BConv.cInt),
  ("$SYS/broker/bytes/received", SysField.bytes_received, BConv.cInt),
  ("$SYS/broker/bytes/sent", SysField.bytes_sent, BConv.cInt),
  ("$SYS/broker/publish/bytes/received", SysField.bytes_received, BConv.cInt),
  ("$SYS/broker/publish/bytes/sent", SysField.bytes_sent, BConv.cInt),
  ("$SYS/broker/subscriptions/count", SysField.subscriptions_count, BConv.cInt),
  ("$SYS/broker/retained messages/count", SysField.retained_messages_count, BConv.cInt),
  ("$SYS/broker/load/messages/received/1min", SysField.load_messages_received_1min, BConv.cParseFloat),
  ("$SYS/broker/load/messages/received/5min", SysField.load_messages_received_5min, BConv.cParseFloat),
  ("$SYS/broker/load/messages/received/15min", SysField.load_messages_received_15min, BConv.cParseFloat),
  ("$SYS/broker/load/messages/sent/1min", SysField.load_messages_sent_1min, BConv.cParseFloat),
  ("$SYS/broker/load/messages/sent/5min", SysField.load_messages_sent_5min, BConv.cParseFloat),
  ("$SYS/broker/load/messages/sent/15min", SysField.load_messages_sent_15min, BConv.cParseFloat),
  ("$SYS/broker/load/bytes/received/1min", SysField.load_bytes_received_1min, BConv.cParseFloat),
  ("$SYS/broker/load/bytes/received/5min", SysField.load_bytes_received_5min, BConv.cParseFloat),
  ("$SYS/broker/load/bytes/received/15min", SysField.load_bytes_received_15min, BConv.cParseFloat),
  ("$SYS/broker/load/bytes/sent/1min", SysField.load_bytes_sent_1min, BConv.cParseFloat),
  ("$SYS/broker/load/bytes/sent/5min", SysField.load_bytes_sent_5min, BConv.cParseFloat),
  ("$SYS/broker/load/bytes/sent/15min", SysField.load_bytes_sent_15min, BConv.cParseFloat),
  ("$SYS/broker/load/connections/1min", SysField.load_connections_1min, BConv.cParseFloat),
  ("$SYS/broker/load/connections/5min", SysField.load_connections_5min, BConv.cParseFloat),
  ("$SYS/broker/load/connections/15min", SysField.load_connections_15min, BConv.cParseFloat),
  ("$SYS/broker/load/publish/received/1min", SysField.load_publish_received_1min, BConv.cParseFloat),
  ("$SYS/broker/load/publish/received/5min", SysField.load_publish_received_5min, BConv.cParseFloat),
  ("$SYS/broker/load/publish/received/15min", SysField.load_publish_received_15min, BConv.cParseFloat),
  ("$SYS/broker/load/publish/sent/1min", SysField.load_publish_sent_1min, BConv.cParseFloat),
  ("$SYS/broker/load/publish/sent/5min", SysField.load_publish_sent_5min, BConv.cParseFloat),
  ("$SYS/broker/load/publish/sent/15min", SysField.load_publish_sent_15min, BConv.cParseFloat),
  ("$SYS/broker/load/sockets/1min", SysField.load_sockets_1min, BConv.cParseFloat),
  ("$SYS/broker/load/sockets/5min", SysField.load_sockets_5min, BConv.cParseFloat),
  ("$SYS/broker/load/sockets/15min", SysField.load_sockets_15min, BConv.cParseFloat),
  ("$SYS/broker/heap/current", SysField.heap_current, BConv.cInt),
  ("$SYS/broker/heap/maximum", SysField.heap_maximum, BConv.cInt)]

/-- `MQTTBridge._update_stats_from_sys(topic, payload)`: look the topic
up, convert the payload, and on success write only the mapped attribute
(the bridge's copy of the stats record has no last_updated bump here);
conversion failures are caught and change nothing. -/
def update_stats_from_sys (st : BrokerStats) (topic : String)
    (payload : List Char) : BrokerStats :=
  match List.lookup topic topic_map with
  | none => st
  | some (fld, cv) =>
    match convert cv payload with
    | none => st
    | some v => { st with fields := fun f => if f = fld then some v else st.fields f }

end MQTTBridge

/-- C2 counterexample: `$SYS/broker/clients/connected` is a known numeric
metric topic in both the metrics cache (SysMonitor) and the bridge, yet
the payload `"5 clients"` (numeric value plus unit suffix) fails to
parse in both, so neither performs a field update. -/
theorem c2_counterexample :
    List.lookup "$SYS/broker/clients/connected" TOPIC_MAPPINGS
        = some (SysField.clients_connected, PType.pInt)
    ∧ List.lookup "$SYS/broker/clients/connected" MQTTBridge.topic_map
        = some (SysField.clients_connected, MQTTBridge.BConv.cInt)
    ∧ pyInt (String.data "5 clients") = none
    ∧ SysMonitor.on_sys_message emptyStats "$SYS/broker/clients/connected"
        (String.data "5 clients") 3 = emptyStats
    ∧ MQTTBridge.update_stats_from_sys emptyStats "$SYS/broker/clients/connected"
        (String.data "5 clients") = emptyStats :=
  ⟨by decide, by decide, by decide, rfl, rfl⟩

/-- C2 (amended): only the topics the bridge maps to its token-splitting
helpers `parse_int` / `parse_float` — the uptime topic and the load
statistics — tolerate a payload of a numeric token followed by a unit
suffix, by parsing only the leading token (so such a payload gives a
successful field update, as the uptime conjunct shows).  Topics mapped to
Python's plain `int` converter, and every integer topic of the
SysMonitor metrics cache, reject such a payload, leaving the record
unchanged. -/
theorem c2_amended_unit_suffix :
    ((MQTTBridge.topic_map.filter fun e =>
        e.2.2 == MQTTBridge.BConv.cParseInt || e.2.2 == MQTTBridge.BConv.cParseFloat).map
          Prod.fst
      = ["$SYS/broker/uptime",
         "$SYS/broker/load/messages/received/1min",
         "$SYS/broker/load/messages/received/5min",
         "$SYS/broker/load/messages/received/15min",
         "$SYS/broker/load/messages/sent/1min",
         "$SYS/broker/load/messages/sent/5min",
         "$SYS/broker/load/messages/sent/15min",
         "$SYS/broker/load/bytes/received/1min",
         "$SYS/broker/load/bytes/received/5min",
         "$SYS/broker/load/bytes/received/15min",
         "$SYS/broker/load/bytes/sent/1min",
         "$SYS/broker/load/bytes/sent/5min",
         "$SYS/broker/load/bytes/sent/15min",
         "$SYS/broker/load/connections/1min",
         "$SYS/broker/load/connections/5min",
         "$SYS/broker/load/connections/15min",
         "$SYS/broker/load/publish/received/1min",
         "$SYS/broker/load/publish/received/5min",
         "$SYS/broker/load/publish/received/15min",
         "$SYS/broker/load/publish/sent/1min",
         "$SYS/broker/load/publish/sent/5min",
         "$SYS/broker/load/publish/sent/15min",
         "$SYS/broker/load/sockets/1min",
         "$SYS/broker/load/sockets/5min",
         "$SYS/broker/load/sockets/15min"])
    ∧ ∀ tok unit : List Char,
        tok ≠ [] → (∀ c ∈ tok, isPySpace c = false) →
        unit ≠ [] → (∀ c ∈ unit, isPySpace c = false) →
        MQTTBridge.parse_int (tok ++ ' ' :: unit) = pyInt tok
        ∧ MQTTBridge.parse_float (tok ++ ' ' :: unit) = pyFloat tok
        ∧ pyInt (tok ++ ' ' :: unit) = none
        ∧ (∀ (st : BrokerStats) (topic : String) (fld : SysField) (now : Int),
            List.lookup topic TOPIC_MAPPINGS = some (fld, PType.pInt) →
            SysMonitor.on_sys_message st topic (tok ++ ' ' :: unit) now = st)
        ∧ (∀ (st : BrokerStats) (n : Int), pyInt tok = some n →
            (MQTTBridge.update_stats_from_sys st "$SYS/broker/uptime"
                (tok ++ ' ' :: unit)).fields SysField.uptime = some (StatVal.i n)) := by
  refine ⟨by decide, ?_⟩
  intro tok unit ht hat hu hau
  have hsplit := pySplit_token_unit tok unit ht hat
  have hnone := pyInt_token_space_none tok unit ht hat hu hau
  refine ⟨?_, ?_, hnone, ?_, ?_⟩
  · simp [MQTTBridge.parse_int, hsplit]
  · simp [MQTTBridge.parse_float, hsplit]
  · intro st topic fld now hl
    simp [SysMonitor.on_sys_message, hl, SysMonitor.parseValue, hnone]
  · intro st n hn
    have hup : List.lookup "$SYS/broker/uptime" MQTTBridge.topic_map
        = some (SysField.uptime, MQTTBridge.BConv.cParseInt) := by decide
    simp [MQTTBridge.update_stats_from_sys, hup, MQTTBridge.convert,
      MQTTBridge.parse_int, hsplit, hn]

/-- Witness for the amended C2: the bridge parses the mosquitto uptime
payload `"123 seconds"` as 123 and updates the uptime field. -/
theorem c2_witness :
    MQTTBridge.parse_int (String.data "123 seconds") = some 123
    ∧ (MQTTBridge.update_stats_from_sys emptyStats "$SYS/broker/uptime"
        (String.data "123 seconds")).fields SysField.uptime = some (StatVal.i 123) := by
  have he : String.data "123 seconds" = String.data "123" ++ ' ' :: String.data "seconds" := by
    decide
  have h := c2_amended_unit_suffix.2 (String.data "123") (String.data "seconds")
    (by decide) (by decide) (by decide) (by decide)
  constructor
  · rw [he, h.1]
    decide
  · rw [he]
    exact h.2.2.2.2 emptyStats 123 (by decide)

/-! ## Broker connection state (MQTTClient) -/

/-- A network-level subscription operation issued against the broker. -/
inductive NetOp
  | sub (pattern : String)
  | unsub (pattern : String)
  deriving DecidableEq

namespace MQTTClient

/-- The MQTTClient state relevant to the verified claims: the connected
flag, whether `_client` is set, and the `_message_callbacks` registry
(callbacks are opaque, identified by numbers; dict insertion order is
kept). -/
structure MqttState where
  connected : Bool
  clientPresent : Bool
  message_callbacks : List (String × List Nat)
  deriving DecidableEq

/-- Register a callback under a pattern, additively, as
`_message_callbacks.setdefault`-style code in `subscribe` does: append to
the pattern's list, creating the entry at the end of the dict if new. -/
def addCallback : List (String × List Nat) → String → Nat → List (String × List Nat)
  | [], t, cb => [(t, [cb])]
  | (k, v) :: rest, t, cb =>
    if k = t then (k, v ++ [cb]) :: rest else (k, v) :: addCallback rest t cb

/-- Remove a pattern's entry, as `self._message_callbacks.pop(topic, None)`
does. -/
def removeKey : List (String × List Nat) → String → List (String × List Nat)
  | [], _ => []
  | (k, v) :: rest, t => if k = t then rest else (k, v) :: removeKey rest t

/-- All callbacks registered under a pattern. -/
def getCallbacks : List (String × List Nat) → String → List Nat
  | [], _ => []
  | (k, v) :: rest, t => if k = t then v else getCallbacks rest t

/-- Outcome of `MQTTClient.connect()`: either some statement in the try
block raised (with or without `_client` having been assigned first), or
the call ran to the end of its wait loop and returned the `_connected`
flag the broker ack handler had (or had not) set. -/
inductive ConnectOutcome
  | raised (clientSet : Bool)
  | waited (flag : Bool)
  deriving DecidableEq

/-- `MQTTClient.connect()`: every exception is caught, clearing
`_connected` and returning False; otherwise the final `_connected` flag
is returned. -/
def connect (s : MqttState) (o : ConnectOutcome) : Bool × MqttState :=
  match o with
  | ConnectOutcome.raised cset =>
    (false, { s with connected := false,
                     clientPresent := cset || s.clientPresent })
  | ConnectOutcome.waited b =>
    (b, { s with connected := b, clientPresent := true })

/-- `MQTTClient.publish(...)`: False when not connected or `_client` is
unset; otherwise the paho call either raises (caught, False) or returns a
result code compared against MQTT_ERR_SUCCESS = 0. -/
def publish (s : MqttState) (net : Except Unit Nat) : Bool :=
  if s.connected && s.clientPresent then
    match net with
    | Except.error _ => false
    | Except.ok rc => rc == 0
  else false

/-- `MQTTClient.subscribe(topic, callback, qos)`: False (and no
registration) when not connected; otherwise the callback is registered
first, then the network subscribe runs — a raised exception or a failure
code yields False with the registration left in place. -/
def subscribe (s : MqttState) (topic : String) (cb : Nat)
    (net : Except Unit Nat) : Bool × MqttState :=
  if s.connected && s.clientPresent then
    let s2 := { s with message_callbacks := addCallback s.message_callbacks topic cb }
    match net with
    | Except.error _ => (false, s2)
    | Except.ok rc => (rc == 0, s2)
  else (false, s)

/-- `MQTTClient.unsubscribe(topic)`: False when not connected; otherwise
all callbacks for the exact pattern are dropped, then the network
unsubscribe runs with the same failure handling as subscribe. -/
def unsubscribe (s : MqttState) (topic : String)
    (net : Except Unit Nat) : Bool × MqttState :=
  if s.connected && s.clientPresent then
    let s2 := { s with message_callbacks := removeKey s.message_callbacks topic }
    match net with
    | Except.error _ => (false, s2)
    | Except.ok rc => (rc == 0, s2)
  else (false, s)

/-- `MQTTClient._on_disconnect`: clear the connected flag (the
reconnection thread it spawns is outside this state). -/
def on_disconnect (s : MqttState) : MqttState :=
  { s with connected := false }

/-- `MQTTClient._on_connect`: set `_connected` from the reason code and,
when connected, issue one network subscribe per registered pattern. -/
def on_connect (s : MqttState) (reasonOk : Bool) : MqttState × List NetOp :=
  let s2 := { s with connected := reasonOk }
  if reasonOk then
    (s2, s2.message_callbacks.map fun kv => NetOp.sub kv.1)
  else (s2, [])

end MQTTClient

/-- C6: after a disconnect followed by a successful reconnect, the
resubscription pass issues exactly the registered patterns, each exactly
once (the emitted list is the key list of the registration table, which
is duplicate-free), and the registration table itself is untouched. -/
theorem c6_resubscribe_once_per_pattern :
    ∀ s : MQTTClient.MqttState,
      (s.message_callbacks.map Prod.fst).Nodup →
      (MQTTClient.on_connect (MQTTClient.on_disconnect s) true).1.message_callbacks
          = s.message_callbacks
      ∧ (MQTTClient.on_connect (MQTTClient.on_disconnect s) true).2
          = (s.message_callbacks.map Prod.fst).map NetOp.sub
      ∧ ((MQTTClient.on_connect (MQTTClient.on_disconnect s) true).2).Nodup
      ∧ (∀ p, NetOp.sub p ∈ (MQTTClient.on_connect (MQTTClient.on_disconnect s) true).2
          ↔ p ∈ s.message_callbacks.map Prod.fst) := by
  intro s hnodup
  have hinj : Function.Injective NetOp.sub := by
    intro a b h
    cases h
    rfl
  have hops : (MQTTClient.on_connect (MQTTClient.on_disconnect s) true).2
      = (s.message_callbacks.map Prod.fst).map NetOp.sub := by
    simp [MQTTClient.on_connect, MQTTClient.on_disconnect]
  refine ⟨by simp [MQTTClient.on_connect, MQTTClient.on_disconnect], hops, ?_, ?_⟩
  · rw [hops]
    exact hnodup.map hinj
  · intro p
    rw [hops]
    constructor
    · intro hmem
      rcases List.mem_map.mp hmem with ⟨a, ha, he⟩
      rwa [← hinj he]
    · intro hmem
      exact List.mem_map_of_mem NetOp.sub hmem

/-- Witness for C6 with two registered patterns. -/
theorem c6_witness :
    (MQTTClient.on_connect
        (MQTTClient.on_disconnect ⟨true, true, [("a", [0]), ("b", [1])]⟩) true).2
      = [NetOp.sub "a", NetOp.sub "b"] :=
  (c6_resubscribe_once_per_pattern ⟨true, true, [("a", [0]), ("b", [1])]⟩
    (by decide)).2.1

/-- C8: connect, publish, subscribe and unsubscribe are total functions
into booleans — a raised transport exception is caught and reported as a
False return — and each returns True exactly when connected, the client
object present, and the transport reported success (for connect, when the
wait loop observed the broker ack). -/
theorem c8_never_raises_boolean_failure :
    ∀ (s : MQTTClient.MqttState) (o : MQTTClient.ConnectOutcome)
      (net : Except Unit Nat) (topic : String) (cb : Nat),
      ((MQTTClient.connect s o).1 = true ↔ o = MQTTClient.ConnectOutcome.waited true)
      ∧ (MQTTClient.publish s net = true ↔
          (s.connected = true ∧ s.clientPresent = true ∧ net = Except.ok 0))
      ∧ ((MQTTClient.subscribe s topic cb net).1 = true ↔
          (s.connected = true ∧ s.clientPresent = true ∧ net = Except.ok 0))
      ∧ ((MQTTClient.unsubscribe s topic net).1 = true ↔
          (s.connected = true ∧ s.clientPresent = true ∧ net = Except.ok 0)) := by
  intro s o net topic cb
  refine ⟨?_, ?_, ?_, ?_⟩
  · cases o with
    | raised cset => simp [MQTTClient.connect]
    | waited b => cases b <;> simp [MQTTClient.connect]
  · cases hc : s.connected <;> cases hp : s.clientPresent <;>
      cases net with
      | error e => simp [MQTTClient.publish, hc, hp]
      | ok rc => simp [MQTTClient.publish, hc, hp]
  · cases hc : s.connected <;> cases hp : s.clientPresent <;>
      cases net with
      | error e => simp [MQTTClient.subscribe, hc, hp]
      | ok rc => simp [MQTTClient.subscribe, hc, hp]
  · cases hc : s.connected <;> cases hp : s.clientPresent <;>
      cases net with
      | error e => simp [MQTTClient.unsubscribe, hc, hp]
      | ok rc => simp [MQTTClient.unsubscribe, hc, hp]

theorem getCallbacks_addCallback (cbs : List (String × List Nat))
    (t : String) (cb : Nat) :
    MQTTClient.getCallbacks (MQTTClient.addCallback cbs t cb) t
      = MQTTClient.getCallbacks cbs t ++ [cb] := by
  induction cbs with
  | nil => simp [MQTTClient.addCallback, MQTTClient.getCallbacks]
  | cons kv rest ih =>
    by_cases hk : kv.1 = t
    · simp [MQTTClient.addCallback, MQTTClient.getCallbacks, hk]
    · simp [MQTTClient.addCallback, MQTTClient.getCallbacks, hk, ih]

/-- C10: subscribing while not connected returns False and leaves the
registration table exactly as it was (the connectivity check precedes the
registration), whereas a subscribe performed while connected (client
present) appends the callback to the pattern's registration before the
network call, and the registration survives any network outcome,
including failure. -/
theorem c10_subscribe_disconnected_no_registration :
    ∀ (s : MQTTClient.MqttState) (topic : String) (cb : Nat) (net : Except Unit Nat),
      (s.connected = false → MQTTClient.subscribe s topic cb net = (false, s))
      ∧ (s.connected = true → s.clientPresent = true →
          MQTTClient.getCallbacks
              (MQTTClient.subscribe s topic cb net).2.message_callbacks topic
            = MQTTClient.getCallbacks s.message_callbacks topic ++ [cb]) := by
  intro s topic cb net
  constructor
  · intro hc
    simp [MQTTClient.subscribe, hc]
  · intro hc hp
    have hstate : (MQTTClient.subscribe s topic cb net).2.message_callbacks
        = MQTTClient.addCallback s.message_callbacks topic cb := by
      cases net with
      | error e => simp [MQTTClient.subscribe, hc, hp]
      | ok rc => simp [MQTTClient.subscribe, hc, hp]
    rw [hstate]
    exact getCallbacks_addCallback s.message_callbacks topic cb

/-- Witness for C10: a disconnected subscribe is a no-op returning False,
and a connected subscribe with a failing transport still registers. -/
theorem c10_witness :
    MQTTClient.subscribe ⟨false, true, []⟩ "t" 7 (Except.ok 0)
        = (false, ⟨false, true, []⟩)
    ∧ MQTTClient.getCallbacks
        (MQTTClient.subscribe ⟨true, true, []⟩ "t" 7 (Except.error ())).2.message_callbacks "t"
      = MQTTClient.getCallbacks ([] : List (String × List Nat)) "t" ++ [7] :=
  ⟨(c10_subscribe_disconnected_no_registration ⟨false, true, []⟩ "t" 7 (Except.ok 0)).1 rfl,
   (c10_subscribe_disconnected_no_registration ⟨true, true, []⟩ "t" 7 (Except.error ())).2
     rfl rfl⟩

/-! ## Subscription multiplexer (SubscriptionManager) -/

namespace SubscriptionManager

/-- The multiplexer state: the two reverse indices
(`_topic_clients : pattern -> set of session ids` and
`_client_subscriptions : session id -> set of patterns`, absent keys
modelled as `none`) and the set of patterns with a stored forwarding
callback (`_mqtt_subscriptions`, callbacks opaque). -/
structure SubMgrState where
  topic_clients : String → Option (List String)
  client_subscriptions : String → Option (List String)
  mqtt_subscriptions : List String

/-- Python `set.add`: a set is a duplicate-free list here. -/
def setAdd (l : List String) (x : String) : List String :=
  if x ∈ l then l else l ++ [x]

/-- Python `set.discard`. -/
def setDiscard (l : List String) (x : String) : List String :=
  l.erase x

/-- Store a key in a dict-of-sets. -/
def mapInsert (f : String → Option (List String)) (k : String) (v : List String) :
    String → Option (List String) :=
  fun x => if x = k then some v else f x

/-- Delete a key from a dict-of-sets. -/
def mapRemove (f : String → Option (List String)) (k : String) :
    String → Option (List String) :=
  fun x => if x = k then none else f x

/-- Store a key, deleting it instead when its new set is empty (the
`discard`-then-`del`-if-empty idiom). -/
def mapShrink (f : String → Option (List String)) (k : String) (v : List String) :
    String → Option (List String) :=
  fun x => if x = k then (if v.isEmpty then none else some v) else f x

/-- A fresh SubscriptionManager with empty indices. -/
def initState : SubMgrState := ⟨fun _ => none, fun _ => none, []⟩

/-- `subscribe_client(client_id, topic)`.  `connected` is the MQTT
client's connectivity, `netOk` the outcome of the network-level subscribe
issued for a first reference (the emitted `NetOp.sub` records that the
call was attempted).  On network failure the bookkeeping added by this
call is rolled back. -/
def subscribe_client (s : SubMgrState) (connected netOk : Bool)
    (cid topic : String) : Bool × SubMgrState × List NetOp :=
  if connected then
    let l := (s.topic_clients topic).getD []
    let is_new := l.isEmpty
    let s1 : SubMgrState :=
      { s with
        topic_clients := mapInsert s.topic_clients topic (setAdd l cid),
        client_subscriptions := mapInsert s.client_subscriptions cid
          (setAdd ((s.client_subscriptions cid).getD []) topic) }
    if is_new then
      if netOk then
        (true,
         { s1 with mqtt_subscriptions := setAdd s1.mqtt_subscriptions topic },
         [NetOp.sub topic])
      else
        (false,
         { s1 with
           topic_clients := mapShrink s1.topic_clients topic
             (setDiscard ((s1.topic_clients topic).getD []) cid),
           client_subscriptions := mapShrink s1.client_subscriptions cid
             (setDiscard ((s1.client_subscriptions cid).getD []) topic) },
         [NetOp.sub topic])
    else (true, s1, [])
  else (false, s, [])

/-- `unsubscribe_client(client_id, topic)`: drop the session's reference
from both indices (deleting emptied entries) and, when the last reference
went away, issue the network unsubscribe (whose success controls whether
the stored forwarding callback is dropped).  Always returns True. -/
def unsubscribe_client (s : SubMgrState) (netOk : Bool)
    (cid topic : String) : Bool × SubMgrState × List NetOp :=
  let tc :=
    match s.topic_clients topic with
    | none => s.topic_clients
    | some l =>
      if (setDiscard l cid).isEmpty then mapRemove s.topic_clients topic
      else mapInsert s.topic_clients topic (setDiscard l cid)
  let shouldUnsub :=
    match s.topic_clients topic with
    | none => false
    | some l => (setDiscard l cid).isEmpty
  let cs :=
    match s.client_subscriptions cid with
    | none => s.client_subscriptions
    | some m =>
      if (setDiscard m topic).isEmpty then mapRemove s.client_subscriptions cid
      else mapInsert s.client_subscriptions cid (setDiscard m topic)
  let s1 : SubMgrState := { s with topic_clients := tc, client_subscriptions := cs }
  if shouldUnsub then
    (true,
     { s1 with mqtt_subscriptions :=
         if netOk then s1.mqtt_subscriptions.erase topic else s1.mqtt_subscriptions },
     [NetOp.unsub topic])
  else (true, s1, [])

/-- The loop body of `unsubscribe_client_all`. -/
def unsubAllGo (netOk : String → Bool) (cid : String) :
    List String → SubMgrState → SubMgrState × List NetOp
  | [], s => (s, [])
  | t :: ts, s =>
    let r := unsubscribe_client s (netOk t) cid t
    let rest := unsubAllGo netOk cid ts r.2.1
    (rest.1, r.2.2 ++ rest.2)

/-- `unsubscribe_client_all(client_id)`: sweep over the session's current
patterns, calling `unsubscribe_client` for each. -/
def unsubscribe_client_all (s : SubMgrState) (netOk : String → Bool)
    (cid : String) : SubMgrState × List NetOp :=
  unsubAllGo netOk cid ((s.client_subscriptions cid).getD []) s

/-- The session reference count of a pattern. -/
def subRefcount (s : SubMgrState) (topic : String) : Nat :=
  ((s.topic_clients topic).getD []).length

end SubscriptionManager

/-- C4: a network subscribe is attempted exactly on the 0 -> 1 transition
of a pattern's session reference count and a network unsubscribe exactly
on the transition that empties the subscriber set; in particular two
sessions subscribing to the same pattern cause exactly one network
subscribe, the first session's unsubscribe causes no network
unsubscribe while the second remains, and the second session's
unsubscribe causes exactly one. -/
theorem c4_refcounted_network_ops :
    (∀ (s : SubscriptionManager.SubMgrState) (netOk : Bool) (cid topic : String),
        ((SubscriptionManager.subscribe_client s true netOk cid topic).2.2
            = [NetOp.sub topic] ↔ SubscriptionManager.subRefcount s topic = 0)
        ∧ ((SubscriptionManager.subscribe_client s true netOk cid topic).2.2 = []
            ↔ SubscriptionManager.subRefcount s topic ≠ 0))
    ∧ (∀ (s : SubscriptionManager.SubMgrState) (netOk : Bool) (cid topic : String),
        ((SubscriptionManager.unsubscribe_client s netOk cid topic).2.2
            = [NetOp.unsub topic]
          ↔ ∃ l, s.topic_clients topic = some l ∧ l.erase cid = [])
        ∧ ((SubscriptionManager.unsubscribe_client s netOk cid topic).2.2 = []
          ↔ ¬ ∃ l, s.topic_clients topic = some l ∧ l.erase cid = []))
    ∧ (∀ c1 c2 p : String, c1 ≠ c2 →
        (SubscriptionManager.subscribe_client SubscriptionManager.initState
            true true c1 p).2.2 = [NetOp.sub p]
        ∧ (SubscriptionManager.subscribe_client
            (SubscriptionManager.subscribe_client SubscriptionManager.initState
              true true c1 p).2.1 true true c2 p).2.2 = []
        ∧ (SubscriptionManager.unsubscribe_client
            (SubscriptionManager.subscribe_client
              (SubscriptionManager.subscribe_client SubscriptionManager.initState
                true true c1 p).2.1 true true c2 p).2.1 true c1 p).2.2 = []
        ∧ (SubscriptionManager.unsubscribe_client
            (SubscriptionManager.unsubscribe_client
              (SubscriptionManager.subscribe_client
                (SubscriptionManager.subscribe_client SubscriptionManager.initState
                  true true c1 p).2.1 true true c2 p).2.1 true c1 p).2.1
            true c2 p).2.2 = [NetOp.unsub p]) := by
  refine ⟨?_, ?_, ?_⟩
  · intro s netOk cid topic
    by_cases hnew : ((s.topic_clients topic).getD []).isEmpty
    · have h0 : SubscriptionManager.subRefcount s topic = 0 := by
        simp only [SubscriptionManager.subRefcount]
        simpa [List.isEmpty_iff] using hnew
      cases netOk <;>
        simp [SubscriptionManager.subscribe_client, hnew, h0]
    · have h0 : SubscriptionManager.subRefcount s topic ≠ 0 := by
        simp only [SubscriptionManager.subRefcount]
        intro hlen
        exact hnew (by simpa [List.isEmpty_iff, List.length_eq_zero] using hlen)
      cases netOk <;>
        simp [SubscriptionManager.subscribe_client, hnew, h0]
  · intro s netOk cid topic
    cases htc : s.topic_clients topic with
    | none =>
      constructor
      · simp [SubscriptionManager.unsubscribe_client, htc]
      · simp [SubscriptionManager.unsubscribe_client, htc]
    | some l =>
      by_cases he : l.erase cid = []
      · have he2 : l = [] ∨ l = [cid] := List.erase_eq_nil.mp he
        constructor <;>
          simp [SubscriptionManager.unsubscribe_client, SubscriptionManager.setDiscard,
            htc, he]
        · exact he2
        · intro hnil
          rcases he2 with h | h
          · exact absurd h hnil
          · exact h
      · have he2 : ¬ l = [] ∧ ¬ l = [cid] := by
          constructor
          · intro h
            rw [h] at he
            exact he (by simp)
          · intro h
            rw [h] at he
            exact he (by simp)
        constructor <;>
          simp [SubscriptionManager.unsubscribe_client, SubscriptionManager.setDiscard,
            htc, he]
        · exact he2
        · exact he2
  · intro c1 c2 p hne
    have hne2 : c2 ≠ c1 := fun h => hne h.symm
    have hops1 : (SubscriptionManager.subscribe_client SubscriptionManager.initState
        true true c1 p).2.2 = [NetOp.sub p] := by
      simp [SubscriptionManager.subscribe_client, SubscriptionManager.initState]
    set S1 := (SubscriptionManager.subscribe_client SubscriptionManager.initState
        true true c1 p).2.1 with hS1
    have htc1 : S1.topic_clients p = some [c1] := by
      rw [hS1]
      simp [SubscriptionManager.subscribe_client, SubscriptionManager.initState,
        SubscriptionManager.mapInsert, SubscriptionManager.setAdd]
    have hops2 : (SubscriptionManager.subscribe_client S1 true true c2 p).2.2 = [] := by
      simp [SubscriptionManager.subscribe_client, htc1]
    set S2 := (SubscriptionManager.subscribe_client S1 true true c2 p).2.1 with hS2
    have htc2 : S2.topic_clients p = some [c1, c2] := by
      rw [hS2]
      simp [SubscriptionManager.subscribe_client, htc1,
        SubscriptionManager.mapInsert, SubscriptionManager.setAdd, hne2]
    have herase1 : ([c1, c2] : List String).erase c1 = [c2] := by
      simp
    have hops3 : (SubscriptionManager.unsubscribe_client S2 true c1 p).2.2 = [] := by
      simp [SubscriptionManager.unsubscribe_client, SubscriptionManager.setDiscard,
        htc2, herase1]
    set S3 := (SubscriptionManager.unsubscribe_client S2 true c1 p).2.1 with hS3
    have htc3 : S3.topic_clients p = some [c2] := by
      rw [hS3]
      simp [SubscriptionManager.unsubscribe_client, SubscriptionManager.setDiscard,
        htc2, herase1, SubscriptionManager.mapInsert]
    have hops4 : (SubscriptionManager.unsubscribe_client S3 true c2 p).2.2
        = [NetOp.unsub p] := by
      simp [SubscriptionManager.unsubscribe_client, SubscriptionManager.setDiscard,
        htc3]
    exact ⟨hops1, hops2, hops3, hops4⟩

/-- Witness for C4: the two-session scenario at concrete session ids. -/
theorem c4_witness :
    (SubscriptionManager.subscribe_client SubscriptionManager.initState
        true true "s1" "t").2.2 = [NetOp.sub "t"]
    ∧ (SubscriptionManager.subscribe_client
        (SubscriptionManager.subscribe_client SubscriptionManager.initState
          true true "s1" "t").2.1 true true "s2" "t").2.2 = []
    ∧ (SubscriptionManager.unsubscribe_client
        (SubscriptionManager.subscribe_client
          (SubscriptionManager.subscribe_client SubscriptionManager.initState
            true true "s1" "t").2.1 true true "s2" "t").2.1 true "s1" "t").2.2 = []
    ∧ (SubscriptionManager.unsubscribe_client
        (SubscriptionManager.unsubscribe_client
          (SubscriptionManager.subscribe_client
            (SubscriptionManager.subscribe_client SubscriptionManager.initState
              true true "s1" "t").2.1 true true "s2" "t").2.1 true "s1" "t").2.1
        true "s2" "t").2.2 = [NetOp.unsub "t"] :=
  c4_refcounted_network_ops.2.2 "s1" "s2" "t" (by decide)

/-! ## The dual reverse-index invariant (C5) -/

namespace SubscriptionManager

/-- Membership in an optional set: the key is present and the element is
in its set. -/
def optMem (o : Option (List String)) (x : String) : Prop :=
  ∃ l, o = some l ∧ x ∈ l

theorem optMem_iff_getD (o : Option (List String)) (x : String) :
    optMem o x ↔ x ∈ o.getD [] := by
  cases o <;> simp [optMem]

/-- The internal invariant: no empty entry survives in either index, the
stored sets are duplicate-free, and the two indices mirror each other. -/
def SubInv (s : SubMgrState) : Prop :=
  (∀ p l, s.topic_clients p = some l → l ≠ [] ∧ l.Nodup)
  ∧ (∀ c m, s.client_subscriptions c = some m → m ≠ [] ∧ m.Nodup)
  ∧ (∀ p c, optMem (s.topic_clients p) c ↔ optMem (s.client_subscriptions c) p)

theorem ext' (a b : SubMgrState)
    (h1 : ∀ x, a.topic_clients x = b.topic_clients x)
    (h2 : ∀ x, a.client_subscriptions x = b.client_subscriptions x)
    (h3 : a.mqtt_subscriptions = b.mqtt_subscriptions) : a = b := by
  cases a
  cases b
  simp only [SubMgrState.mk.injEq]
  exact ⟨funext h1, funext h2, h3⟩

theorem setAdd_ne_nil (l : List String) (x : String) : setAdd l x ≠ [] := by
  by_cases hx : x ∈ l
  · simpa [setAdd, hx] using List.ne_nil_of_mem hx
  · simp [setAdd, hx]

theorem setAdd_nodup (l : List String) (x : String) (h : l.Nodup) :
    (setAdd l x).Nodup := by
  by_cases hx : x ∈ l
  · simpa [setAdd, hx] using h
  · simp [setAdd, hx, List.nodup_append, h]

theorem mem_setAdd (l : List String) (x y : String) :
    y ∈ setAdd l x ↔ y ∈ l ∨ y = x := by
  by_cases hx : x ∈ l
  · simp only [setAdd, hx, if_true]
    constructor
    · exact Or.inl
    · rintro (h | h)
      · exact h
      · rw [h]
        exact hx
  · simp [setAdd, hx]

theorem subInv_insert (s : SubMgrState) (h : SubInv s) (cid topic : String)
    (mq : List String) :
    SubInv ⟨mapInsert s.topic_clients topic
              (setAdd ((s.topic_clients topic).getD []) cid),
            mapInsert s.client_subscriptions cid
              (setAdd ((s.client_subscriptions cid).getD []) topic),
            mq⟩ := by
  obtain ⟨h1, h2, h3⟩ := h
  have base : ∀ p c, c ∈ (s.topic_clients p).getD [] ↔
      p ∈ (s.client_subscriptions c).getD [] := by
    intro p c
    have := h3 p c
    rwa [optMem_iff_getD, optMem_iff_getD] at this
  refine ⟨?_, ?_, ?_⟩
  · intro p l hl
    by_cases hp : p = topic
    · simp only [mapInsert, hp, if_true, eq_self_iff_true, Option.some.injEq] at hl
      rw [← hl]
      refine ⟨setAdd_ne_nil _ _, setAdd_nodup _ _ ?_⟩
      cases htc : s.topic_clients topic with
      | none => simp
      | some l0 => simpa using (h1 topic l0 htc).2
    · simp only [mapInsert, if_neg hp] at hl
      exact h1 p l hl
  · intro c m hm
    by_cases hc : c = cid
    · simp only [mapInsert, hc, if_true, eq_self_iff_true, Option.some.injEq] at hm
      rw [← hm]
      refine ⟨setAdd_ne_nil _ _, setAdd_nodup _ _ ?_⟩
      cases hcs : s.client_subscriptions cid with
      | none => simp
      | some m0 => simpa using (h2 cid m0 hcs).2
    · simp only [mapInsert, if_neg hc] at hm
      exact h2 c m hm
  · intro p c
    rw [optMem_iff_getD, optMem_iff_getD]
    by_cases hp : p = topic <;> by_cases hc : c = cid
    · simp [mapInsert, hp, hc, mem_setAdd]
    · simp only [mapInsert, hp, if_true, eq_self_iff_true, if_neg hc, Option.getD_some]
      rw [mem_setAdd]
      simp only [hc, or_false]
      exact base topic c
    · simp only [mapInsert, hc, if_true, eq_self_iff_true, if_neg hp, Option.getD_some]
      rw [mem_setAdd]
      simp only [hp, or_false]
      exact base p cid
    · simp only [mapInsert, if_neg hp, if_neg hc]
      exact base p c

theorem subscribe_rollback_eq (s : SubMgrState) (h : SubInv s) (cid topic : String)
    (hnew : ((s.topic_clients topic).getD []).isEmpty = true) :
    (subscribe_client s true false cid topic).2.1 = s := by
  obtain ⟨h1, h2, h3⟩ := h
  have htc : s.topic_clients topic = none := by
    cases htc0 : s.topic_clients topic with
    | none => rfl
    | some l0 =>
      have hne := (h1 topic l0 htc0).1
      rw [htc0] at hnew
      simp only [Option.getD_some, List.isEmpty_iff] at hnew
      exact absurd hnew hne
  have hm : topic ∉ (s.client_subscriptions cid).getD [] := by
    intro hmem
    have := h3 topic cid
    rw [optMem_iff_getD, optMem_iff_getD] at this
    have h0 := this.mpr hmem
    rw [htc] at h0
    simp at h0
  apply ext'
  · intro x
    by_cases hx : x = topic
    · subst hx
      simp [subscribe_client, hnew, mapShrink, mapInsert, setAdd, setDiscard, htc]
    · simp [subscribe_client, hnew, mapShrink, mapInsert, hx]
  · intro x
    by_cases hx : x = cid
    · subst hx
      cases hcs : s.client_subscriptions x with
      | none =>
        simp [subscribe_client, hnew, mapShrink, mapInsert, setAdd, setDiscard, hcs]
      | some m0 =>
        have hm0 : topic ∉ m0 := by
          rw [hcs] at hm
          simpa using hm
        have hne0 : m0 ≠ [] := (h2 x m0 hcs).1
        have hadd : setAdd m0 topic = m0 ++ [topic] := by
          simp [setAdd, hm0]
        have her : (m0 ++ [topic]).erase topic = m0 := by
          rw [List.erase_append_right _ hm0]
          simp
        simp [subscribe_client, hnew, mapShrink, mapInsert, setDiscard, hcs, hadd,
          her, List.isEmpty_iff, hne0]
    · simp [subscribe_client, hnew, mapShrink, mapInsert, hx]
  · simp [subscribe_client, hnew]

theorem unsub_tc (s : SubMgrState) (netOk : Bool) (cid topic : String) :
    (unsubscribe_client s netOk cid topic).2.1.topic_clients
      = match s.topic_clients topic with
        | none => s.topic_clients
        | some l =>
          if (setDiscard l cid).isEmpty then mapRemove s.topic_clients topic
          else mapInsert s.topic_clients topic (setDiscard l cid) := by
  cases htc : s.topic_clients topic with
  | none => simp [unsubscribe_client, htc]
  | some l =>
    by_cases he : (setDiscard l cid).isEmpty <;>
      simp [unsubscribe_client, htc, he]

theorem unsub_cs (s : SubMgrState) (netOk : Bool) (cid topic : String) :
    (unsubscribe_client s netOk cid topic).2.1.client_subscriptions
      = match s.client_subscriptions cid with
        | none => s.client_subscriptions
        | some m =>
          if (setDiscard m topic).isEmpty then mapRemove s.client_subscriptions cid
          else mapInsert s.client_subscriptions cid (setDiscard m topic) := by
  cases htc : s.topic_clients topic with
  | none =>
    cases hcs : s.client_subscriptions cid with
    | none => simp [unsubscribe_client, htc, hcs]
    | some m =>
      by_cases hem : (setDiscard m topic).isEmpty <;>
        simp [unsubscribe_client, htc, hcs, hem]
  | some l =>
    cases hcs : s.client_subscriptions cid with
    | none =>
      by_cases hel : (setDiscard l cid).isEmpty <;>
        simp [unsubscribe_client, htc, hcs, hel]
    | some m =>
      by_cases hel : (setDiscard l cid).isEmpty <;>
        by_cases hem : (setDiscard m topic).isEmpty <;>
          simp [unsubscribe_client, htc, hcs, hel, hem]

theorem subInv_unsubscribe (s : SubMgrState) (h : SubInv s) (netOk : Bool)
    (cid topic : String) :
    SubInv (unsubscribe_client s netOk cid topic).2.1 := by
  obtain ⟨h1, h2, h3⟩ := h
  have base : ∀ p c, c ∈ (s.topic_clients p).getD [] ↔
      p ∈ (s.client_subscriptions c).getD [] := by
    intro p c
    have := h3 p c
    rwa [optMem_iff_getD, optMem_iff_getD] at this
  have htcp := unsub_tc s netOk cid topic
  have hcsp := unsub_cs s netOk cid topic
  have hTgetD : ∀ p, ((unsubscribe_client s netOk cid topic).2.1.topic_clients p).getD []
      = if p = topic then ((s.topic_clients topic).getD []).erase cid
        else (s.topic_clients p).getD [] := by
    intro p
    rw [htcp]
    cases htc : s.topic_clients topic with
    | none =>
      by_cases hp : p = topic
      · simp [hp, htc]
      · simp [hp]
    | some l0 =>
      dsimp only
      by_cases he : (setDiscard l0 cid).isEmpty
      · have he2 : l0.erase cid = [] := by
          simpa [setDiscard, List.isEmpty_iff] using he
        rw [if_pos he]
        by_cases hp : p = topic
        · simp [hp, mapRemove, he2]
        · simp [hp, mapRemove]
      · rw [if_neg he]
        by_cases hp : p = topic
        · simp [hp, mapInsert, setDiscard]
        · simp [hp, mapInsert]
  have hCgetD : ∀ c, ((unsubscribe_client s netOk cid topic).2.1.client_subscriptions c).getD []
      = if c = cid then ((s.client_subscriptions cid).getD []).erase topic
        else (s.client_subscriptions c).getD [] := by
    intro c
    rw [hcsp]
    cases hcs : s.client_subscriptions cid with
    | none =>
      by_cases hc : c = cid
      · simp [hc, hcs]
      · simp [hc]
    | some m0 =>
      dsimp only
      by_cases he : (setDiscard m0 topic).isEmpty
      · have he2 : m0.erase topic = [] := by
          simpa [setDiscard, List.isEmpty_iff] using he
        rw [if_pos he]
        by_cases hc : c = cid
        · simp [hc, mapRemove, he2]
        · simp [hc, mapRemove]
      · rw [if_neg he]
        by_cases hc : c = cid
        · simp [hc, mapInsert, setDiscard]
        · simp [hc, mapInsert]
  refine ⟨?_, ?_, ?_⟩
  · intro p l hl
    rw [htcp] at hl
    cases htc : s.topic_clients topic with
    | none =>
      rw [htc] at hl
      exact h1 p l hl
    | some l0 =>
      rw [htc] at hl
      dsimp only at hl
      by_cases he : (setDiscard l0 cid).isEmpty
      · rw [if_pos he] at hl
        by_cases hp : p = topic
        · simp [mapRemove, hp] at hl
        · simp [mapRemove, hp] at hl
          exact h1 p l hl
      · rw [if_neg he] at hl
        by_cases hp : p = topic
        · simp only [mapInsert, hp, if_true, eq_self_iff_true, Option.some.injEq] at hl
          rw [← hl]
          constructor
          · simpa [setDiscard, List.isEmpty_iff] using he
          · simp only [setDiscard]
            exact List.Nodup.erase cid (h1 topic l0 htc).2
        · simp only [mapInsert, if_neg hp] at hl
          exact h1 p l hl
  · intro c m hm
    rw [hcsp] at hm
    cases hcs : s.client_subscriptions cid with
    | none =>
      rw [hcs] at hm
      exact h2 c m hm
    | some m0 =>
      rw [hcs] at hm
      dsimp only at hm
      by_cases he : (setDiscard m0 topic).isEmpty
      · rw [if_pos he] at hm
        by_cases hc : c = cid
        · simp [mapRemove, hc] at hm
        · simp [mapRemove, hc] at hm
          exact h2 c m hm
      · rw [if_neg he] at hm
        by_cases hc : c = cid
        · simp only [mapInsert, hc, if_true, eq_self_iff_true, Option.some.injEq] at hm
          rw [← hm]
          constructor
          · simpa [setDiscard, List.isEmpty_iff] using he
          · simp only [setDiscard]
            exact List.Nodup.erase topic (h2 cid m0 hcs).2
        · simp only [mapInsert, if_neg hc] at hm
          exact h2 c m hm
  · intro p c
    rw [optMem_iff_getD, optMem_iff_getD, hTgetD, hCgetD]
    have hnodT : ((s.topic_clients topic).getD []).Nodup := by
      cases htc : s.topic_clients topic with
      | none => simp
      | some l0 => simpa using (h1 topic l0 htc).2
    have hnodC : ((s.client_subscriptions cid).getD []).Nodup := by
      cases hcs : s.client_subscriptions cid with
      | none => simp
      | some m0 => simpa using (h2 cid m0 hcs).2
    by_cases hp : p = topic <;> by_cases hc : c = cid
    · simp [hp, hc, List.Nodup.mem_erase_iff hnodT, List.Nodup.mem_erase_iff hnodC]
    · rw [if_pos hp, if_neg hc, hp]
      rw [List.mem_erase_of_ne hc]
      exact base topic c
    · rw [if_neg hp, if_pos hc, hc]
      rw [List.mem_erase_of_ne hp]
      exact base p cid
    · rw [if_neg hp, if_neg hc]
      exact base p c

theorem subInv_subscribe (s : SubMgrState) (h : SubInv s) (conn netOk : Bool)
    (cid topic : String) :
    SubInv (subscribe_client s conn netOk cid topic).2.1 := by
  cases conn with
  | false => simpa [subscribe_client] using h
  | true =>
    by_cases hnew : (((s.topic_clients topic).getD []).isEmpty : Bool)
    · cases netOk with
      | true =>
        have hins := subInv_insert s h cid topic
          (setAdd s.mqtt_subscriptions topic)
        have hstate : (subscribe_client s true true cid topic).2.1
            = ⟨mapInsert s.topic_clients topic
                 (setAdd ((s.topic_clients topic).getD []) cid),
               mapInsert s.client_subscriptions cid
                 (setAdd ((s.client_subscriptions cid).getD []) topic),
               setAdd s.mqtt_subscriptions topic⟩ := by
          simp [subscribe_client, hnew]
        rw [hstate]
        exact hins
      | false =>
        rw [subscribe_rollback_eq s h cid topic hnew]
        exact h
    · have hins := subInv_insert s h cid topic s.mqtt_subscriptions
      have hstate : (subscribe_client s true netOk cid topic).2.1
          = ⟨mapInsert s.topic_clients topic
               (setAdd ((s.topic_clients topic).getD []) cid),
             mapInsert s.client_subscriptions cid
               (setAdd ((s.client_subscriptions cid).getD []) topic),
             s.mqtt_subscriptions⟩ := by
        simp [subscribe_client, hnew]
      rw [hstate]
      exact hins

theorem subInv_unsubAllGo (netOk : String → Bool) (cid : String) :
    ∀ (ts : List String) (s : SubMgrState), SubInv s →
      SubInv (unsubAllGo netOk cid ts s).1 := by
  intro ts
  induction ts with
  | nil =>
    intro s h
    simpa [unsubAllGo] using h
  | cons t ts ih =>
    intro s h
    simp only [unsubAllGo]
    exact ih _ (subInv_unsubscribe s h (netOk t) cid t)

theorem subInv_init : SubInv initState := by
  refine ⟨?_, ?_, ?_⟩
  · intro p l hl
    exact absurd hl (by simp [initState])
  · intro c m hm
    exact absurd hm (by simp [initState])
  · intro p c
    simp [initState, optMem]

/-- The states reachable from a fresh SubscriptionManager through its
public operations, with arbitrary connectivity and network outcomes. -/
inductive SubReachable : SubMgrState → Prop
  | init : SubReachable initState
  | sub (s : SubMgrState) (conn netOk : Bool) (cid topic : String) :
      SubReachable s → SubReachable (subscribe_client s conn netOk cid topic).2.1
  | unsub (s : SubMgrState) (netOk : Bool) (cid topic : String) :
      SubReachable s → SubReachable (unsubscribe_client s netOk cid topic).2.1
  | unsubAll (s : SubMgrState) (netOk : String → Bool) (cid : String) :
      SubReachable s → SubReachable (unsubscribe_client_all s netOk cid).1

theorem subInv_reachable : ∀ s, SubReachable s → SubInv s := by
  intro s h
  induction h with
  | init => exact subInv_init
  | sub s conn netOk cid topic hr ih => exact subInv_subscribe s ih conn netOk cid topic
  | unsub s netOk cid topic hr ih => exact subInv_unsubscribe s ih netOk cid topic
  | unsubAll s netOk cid hr ih => exact subInv_unsubAllGo netOk cid _ s ih

end SubscriptionManager

/-- C5: in every state reachable through completed subscribe_client,
unsubscribe_client and unsubscribe_client_all calls (with arbitrary
connectivity and network outcomes, so in particular across the rollback
of a failed first subscribe), a session id appears in a pattern's
subscriber set exactly when the pattern appears in that session's
subscription set, no pattern maps to an empty subscriber set, and no
session maps to an empty pattern set. -/
theorem c5_dual_index_invariant :
    ∀ s, SubscriptionManager.SubReachable s →
      (∀ p l, s.topic_clients p = some l → l ≠ [])
      ∧ (∀ c m, s.client_subscriptions c = some m → m ≠ [])
      ∧ (∀ p c, SubscriptionManager.optMem (s.topic_clients p) c
          ↔ SubscriptionManager.optMem (s.client_subscriptions c) p) := by
  intro s h
  obtain ⟨h1, h2, h3⟩ := SubscriptionManager.subInv_reachable s h
  exact ⟨fun p l hl => (h1 p l hl).1, fun c m hm => (h2 c m hm).1, h3⟩

/-- Witness for C5 at the initial (reachable) state. -/
theorem c5_witness :
    SubscriptionManager.optMem
        (SubscriptionManager.initState.topic_clients "home/temp") "session1"
      ↔ SubscriptionManager.optMem
        (SubscriptionManager.initState.client_subscriptions "session1") "home/temp" :=
  (c5_dual_index_invariant SubscriptionManager.initState
      SubscriptionManager.SubReachable.init).2.2 "home/temp" "session1"

/-! ## Topic activity tracker (TopicTracker) -/

namespace TopicTracker

/-- The TopicInfo record (timestamps as abstract integer instants). -/
structure TopicInfoM where
  topic : String
  message_count : Nat
  last_payload : Option (List Char)
  last_qos : Option Int
  last_retained : Option Bool
  first_seen : Int
  last_seen : Int
  deriving DecidableEq

/-- The tracker state used by the listing and pruning operations: the
topic table (a dict keyed by topic name, insertion ordered) and the
configured inactivity window. -/
structure TrackerState where
  topics : List (String × TopicInfoM)
  inactive_timeout : Int
  deriving DecidableEq

/-- `TopicTracker._prune_inactive_topics`: with a positive window, drop
every record whose last-seen instant is strictly before `now` minus the
window; a non-positive window disables pruning. -/
def prune (s : TrackerState) (now : Int) : TrackerState :=
  if s.inactive_timeout ≤ 0 then s
  else
    { s with topics :=
        s.topics.filter fun kv => !decide (kv.2.last_seen < now - s.inactive_timeout) }

/-- Insertion step of the last-seen-descending sort. -/
def insertDesc (x : TopicInfoM) : List TopicInfoM → List TopicInfoM
  | [] => [x]
  | y :: ys => if y.last_seen < x.last_seen then x :: y :: ys else y :: insertDesc x ys

/-- `topics.sort(key=lambda t: t.last_seen, reverse=True)`. -/
def sortDesc : List TopicInfoM → List TopicInfoM
  | [] => []
  | x :: xs => insertDesc x (sortDesc xs)

/-- `TopicTracker.get_topics(include_inactive)`: when inactive records
are excluded, the pruning sweep runs first; the surviving records are
returned sorted by last-seen descending. -/
def get_topics (s : TrackerState) (include_inactive : Bool) (now : Int) :
    TrackerState × List TopicInfoM :=
  let s2 := if include_inactive then s else prune s now
  (s2, sortDesc (s2.topics.map Prod.snd))

/-- `TopicTracker.get_topic_count()`: prune, then count. -/
def get_topic_count (s : TrackerState) (now : Int) : TrackerState × Nat :=
  (prune s now, (prune s now).topics.length)

theorem mem_insertDesc (x a : TopicInfoM) (l : List TopicInfoM) :
    a ∈ insertDesc x l ↔ a = x ∨ a ∈ l := by
  induction l with
  | nil => simp [insertDesc]
  | cons y ys ih =>
    by_cases hy : y.last_seen < x.last_seen
    · simp [insertDesc, hy]
    · simp [insertDesc, hy, ih]
      tauto

theorem mem_sortDesc (a : TopicInfoM) (l : List TopicInfoM) :
    a ∈ sortDesc l ↔ a ∈ l := by
  induction l with
  | nil => simp [sortDesc]
  | cons x xs ih =>
    simp [sortDesc, mem_insertDesc, ih]

theorem lookup_mem (l : List (String × TopicInfoM)) (k : String) (v : TopicInfoM)
    (h : List.lookup k l = some v) : v ∈ l.map Prod.snd := by
  induction l with
  | nil => simp [List.lookup] at h
  | cons kv rest ih =>
    rcases kv with ⟨k1, v1⟩
    cases hkb : k == k1 with
    | true =>
      simp only [List.lookup, hkb] at h
      simp at h
      simp [h]
    | false =>
      simp only [List.lookup, hkb] at h
      simp [ih h]

theorem lookup_none_of_not_key (l : List (String × TopicInfoM)) (k : String)
    (h : k ∉ l.map Prod.fst) : List.lookup k l = none := by
  induction l with
  | nil => simp [List.lookup]
  | cons kv rest ih =>
    rcases kv with ⟨k1, v1⟩
    cases hkb : k == k1 with
    | true =>
      exact absurd (by simp [beq_iff_eq.mp hkb]) h
    | false =>
      simp only [List.lookup, hkb]
      exact ih fun hm => h (by simp at hm ⊢; exact Or.inr hm)

theorem lookup_filter_none (l : List (String × TopicInfoM))
    (p : String × TopicInfoM → Bool) (k : String) (v : TopicInfoM)
    (hnd : (l.map Prod.fst).Nodup) (hlk : List.lookup k l = some v)
    (hp : p (k, v) = false) : List.lookup k (l.filter p) = none := by
  induction l with
  | nil => simp [List.lookup] at hlk
  | cons kv rest ih =>
    rcases kv with ⟨k1, v1⟩
    rw [List.map_cons] at hnd
    have hnd1 := (List.nodup_cons.mp hnd).1
    have hnd2 := (List.nodup_cons.mp hnd).2
    cases hkb : k == k1 with
    | true =>
      have hkk : k = k1 := beq_iff_eq.mp hkb
      simp only [List.lookup, hkb] at hlk
      simp only [Option.some.injEq] at hlk
      have hdrop : p (k1, v1) = false := by
        rw [← hkk, hlk]
        exact hp
      rw [List.filter_cons_of_neg (by simp [hdrop])]
      apply lookup_none_of_not_key
      intro hmem
      rcases List.mem_map.mp hmem with ⟨e, he, hfst⟩
      have hme := List.mem_of_mem_filter he
      exact hnd1 (by rw [← hkk]; exact List.mem_map.mpr ⟨e, hme, hfst⟩)
    | false =>
      simp only [List.lookup, hkb] at hlk
      by_cases hkeep : p (k1, v1) = true
      · rw [List.filter_cons_of_pos hkeep]
        simp only [List.lookup, hkb]
        exact ih hnd2 hlk
      · rw [List.filter_cons_of_neg hkeep]
        exact ih hnd2 hlk

end TopicTracker

/-- C7: a tracked topic whose last-seen instant lies strictly outside the
(positive) inactivity window is not returned by a non-inclusive list
query (which prunes it from the table, so later queries of either kind
no longer see it); before such a pruning query, an inclusive list query
leaves the table untouched and still returns the record.  A count query
prunes it just as a non-inclusive list query does. -/
theorem c7_inactive_pruning :
    ∀ (s : TopicTracker.TrackerState) (name : String)
      (info : TopicTracker.TopicInfoM) (now : Int),
      List.lookup name s.topics = some info →
      info.last_seen < now - s.inactive_timeout →
      0 < s.inactive_timeout →
      (s.topics.map Prod.fst).Nodup →
      info ∉ (TopicTracker.get_topics s false now).2
      ∧ ((TopicTracker.get_topics s true now).1 = s
         ∧ info ∈ (TopicTracker.get_topics s true now).2)
      ∧ List.lookup name (TopicTracker.get_topics s false now).1.topics = none
      ∧ List.lookup name (TopicTracker.get_topic_count s now).1.topics = none := by
  intro s name info now hlk hold hpos hnd
  have hntz : ¬ s.inactive_timeout ≤ 0 := by omega
  have hpruned : (TopicTracker.prune s now).topics
      = s.topics.filter fun kv => !decide (kv.2.last_seen < now - s.inactive_timeout) := by
    simp [TopicTracker.prune, hntz]
  have hlknone : List.lookup name (TopicTracker.prune s now).topics = none := by
    rw [hpruned]
    apply TopicTracker.lookup_filter_none s.topics _ name info hnd hlk
    simp [hold]
  refine ⟨?_, ⟨rfl, ?_⟩, ?_, ?_⟩
  · intro hmem
    have h1 : info ∈ (TopicTracker.prune s now).topics.map Prod.snd := by
      simpa [TopicTracker.get_topics, TopicTracker.mem_sortDesc] using hmem
    rw [hpruned] at h1
    rcases List.mem_map.mp h1 with ⟨e, he, hsnd⟩
    have hkeep := List.of_mem_filter he
    rw [hsnd] at hkeep
    simp [hold] at hkeep
  · have h1 : info ∈ s.topics.map Prod.snd := TopicTracker.lookup_mem _ _ _ hlk
    simpa [TopicTracker.get_topics, TopicTracker.mem_sortDesc] using h1
  · simpa [TopicTracker.get_topics] using hlknone
  · simpa [TopicTracker.get_topic_count] using hlknone

/-- Witness for C7: a record last seen at instant 0 with a one-window gap
to `now` is pruned by a non-inclusive query. -/
theorem c7_witness :
    List.lookup "t"
        (TopicTracker.get_topics
          ⟨[("t", ⟨"t", 1, none, none, none, 0, 0⟩)], 10⟩ false 100).1.topics = none :=
  (c7_inactive_pruning ⟨[("t", ⟨"t", 1, none, none, none, 0, 0⟩)], 10⟩ "t"
      ⟨"t", 1, none, none, none, 0, 0⟩ 100 (by decide) (by decide) (by decide)
      (by decide)).2.2.1

/-! ## Bridge command handling (MQTTBridge._handle_command) -/

/-- A call forwarded by the bridge to the broker connection. -/
inductive BrokerCall
  | publish (topic payload : String) (qos : Int) (retain : Bool)
  | subscribe (topic : String) (qos : Int)
  | unsubscribe (topic : String)
  deriving DecidableEq

namespace MQTTBridge

/-- A command dictionary from the external bus: the `type` discriminator
and the optional fields the handler reads with `.get(...)` defaults. -/
structure Command where
  type : Option String
  topic : Option String
  payload : Option String
  qos : Option Int
  retain : Option Bool
  deriving DecidableEq

/-- The bridge state read by the command handler: the topics with a
stored forwarding callback (`_topic_callbacks`, callbacks opaque). -/
structure BridgeState where
  topic_callbacks : List String
  deriving DecidableEq

/-- `MQTTBridge._handle_command(command)`: publish commands require a
nonempty topic and QoS in 0..2 before being forwarded; a subscribe for an
already-tracked topic is a warning no-op; unsubscribe drops the tracked
callback (if any) and forwards; unknown types are ignored. -/
def handle_command (s : BridgeState) (cmd : Command) : BridgeState × List BrokerCall :=
  if cmd.type = some "cmd_publish" then
    if cmd.topic.getD "" = "" then (s, [])
    else
      if cmd.qos.getD 0 = 0 ∨ cmd.qos.getD 0 = 1 ∨ cmd.qos.getD 0 = 2 then
        (s, [BrokerCall.publish (cmd.topic.getD "") (cmd.payload.getD "")
              (cmd.qos.getD 0) (cmd.retain.getD false)])
      else (s, [])
  else if cmd.type = some "cmd_subscribe" then
    if cmd.topic.getD "" ∈ s.topic_callbacks then (s, [])
    else ({ topic_callbacks := s.topic_callbacks ++ [cmd.topic.getD ""] },
          [BrokerCall.subscribe (cmd.topic.getD "") (cmd.qos.getD 0)])
  else if cmd.type = some "cmd_unsubscribe" then
    if cmd.topic.getD "" = "" then (s, [])
    else ({ topic_callbacks := s.topic_callbacks.erase (cmd.topic.getD "") },
          [BrokerCall.unsubscribe (cmd.topic.getD "")])
  else (s, [])

end MQTTBridge

/-- C9: a publish command with an empty topic or a QoS outside 0..2 is
dropped without forwarding anything to the broker connection and without
changing bridge state; a subscribe command for an already-subscribed
topic is a no-op that issues no broker call and changes no state. -/
theorem c9_command_validation :
    ∀ (s : MQTTBridge.BridgeState) (cmd : MQTTBridge.Command),
      (cmd.type = some "cmd_publish" →
        (cmd.topic.getD "" = ""
          ∨ ¬(cmd.qos.getD 0 = 0 ∨ cmd.qos.getD 0 = 1 ∨ cmd.qos.getD 0 = 2)) →
        MQTTBridge.handle_command s cmd = (s, []))
      ∧ (cmd.type = some "cmd_subscribe" →
        cmd.topic.getD "" ∈ s.topic_callbacks →
        MQTTBridge.handle_command s cmd = (s, [])) := by
  intro s cmd
  constructor
  · intro ht hbad
    rcases hbad with hb | hb
    · simp [MQTTBridge.handle_command, ht, hb]
    · by_cases htop : cmd.topic.getD "" = ""
      · simp [MQTTBridge.handle_command, ht, htop]
      · simp [MQTTBridge.handle_command, ht, htop, hb]
  · intro ht hmem
    have hne : ¬ cmd.type = some "cmd_publish" := by
      rw [ht]
      decide
    simp [MQTTBridge.handle_command, hne, ht, hmem]

/-- Witness for C9: a QoS-5 publish command and a duplicate subscribe
command are both dropped. -/
theorem c9_witness :
    MQTTBridge.handle_command ⟨["x"]⟩
        ⟨some "cmd_publish", some "t", none, some 5, none⟩ = (⟨["x"]⟩, [])
    ∧ MQTTBridge.handle_command ⟨["t"]⟩
        ⟨some "cmd_subscribe", some "t", none, some 0, none⟩ = (⟨["t"]⟩, []) :=
  ⟨(c9_command_validation ⟨["x"]⟩ ⟨some "cmd_publish", some "t", none, some 5, none⟩).1
      rfl (Or.inr (by decide)),
   (c9_command_validation ⟨["t"]⟩ ⟨some "cmd_subscribe", some "t", none, some 0, none⟩).2
      rfl (by decide)⟩
